import Mathlib

/-!
Verification of the veza-chat-server core against its specification.

The Rust sources under `src/` are shallowly embedded below:

* `security.rs` — `ContentFilter` (`validate_content`, `sanitize_html`,
  the spam and toxicity detectors) and `AdvancedRateLimiter::check_limit`.
* `message_store.rs` — the unified `messages` store: `get_room_history`,
  `pin_room_message`, `send_direct_message`, `edit_message`,
  `add_reaction`, `remove_reaction`.
* `hub/common.rs` — `ChatHub::unregister` and
  `ChatHub::cleanup_dead_connections`.

Conventions of the embedding:

* Rust `String` is Lean `String`; `content.len()` (a byte count in Rust)
  is `String.utf8ByteSize`.
* Timestamps (`SystemTime`, `DateTime<Utc>`) are `Nat` / `Int` tick
  counts; `Duration` values are in seconds, matching the
  `Duration::from_secs` literals of the source.
  `now.duration_since(t).unwrap_or(ZERO)` is exactly `Nat` truncated
  subtraction `now - t` (the `Err` case of `duration_since`, a clock
  that went backwards, maps to `ZERO`, i.e. `0`).
* `f32` ratio comparisons of the spam/toxicity detectors are modelled by
  exact cross-multiplied integer comparisons (`a / b > 7/10` becomes
  `a * 10 > b * 7`), and the toxicity score is kept in tenths.  In every
  division-by-zero case of the source the numerator is also `0` (an
  empty string has no characters), so the comparison is false exactly
  like the `NaN > c` comparison computed by the Rust code.
* The `regex` patterns of `ContentFilter` are translated one by one into
  executable matchers over `List Char`.  `\s` and `\w` are modelled by
  their ASCII classes (`Char.isWhitespace`, alphanumeric or `_`), and
  `str::to_lowercase` by per-character ASCII lowercasing; the claims
  under verification only exercise ASCII inputs, where these coincide
  with the Unicode-aware Rust behaviour.  The fourteenth dangerous
  pattern does not parse under the Rust `regex` crate (its unescaped
  `[` opens a nested class, leaving the outer class unclosed), so
  `ContentFilter::new` in fact always fails; that construction step is
  modelled by `content_filter_new` over the verbatim pattern strings,
  and `validate_content` embeds the method body as written, reachable
  only under the counterfactual of a successful construction.
* The Postgres tables `messages`, `message_reactions`, `user_blocks`,
  `moderation_log` are lists of rows in a `Db` record; SQL filtering,
  `ORDER BY`, `LIMIT`, `UPDATE ... WHERE` and `DELETE ... WHERE` are
  list operations; `RETURNING id` from the id sequence is modelled by a
  `next_id` counter.  Columns no claim touches (attachments, mentions,
  flags) are omitted.
-/

/-- Modelled from the spec and the call sites of this repository:
`error.rs` (the `ChatError` enum) is not under `src/`; the constructors
below are the ones the sources under `src/` invoke
(`ChatError::PermissionDenied`, `ChatError::configuration_error`,
`ChatError::message_too_long`, `ChatError::inappropriate_content_simple`,
`ChatError::rate_limit_exceeded_simple`, `ChatError::SpamDetected`,
`ChatError::ReactionAlreadyExists`, `ChatError::ReactionNotFound`,
`ChatError::Database`), kinds the spec's §7 taxonomy also names. -/
inductive ChatError where
  | messageTooLong (len max : Nat)
  | inappropriateContent (code : String)
  | spamDetected
  | rateLimitExceeded (code : String)
  | permissionDenied (msg : String)
  | configurationError (msg : String)
  | reactionAlreadyExists
  | reactionNotFound
  | databaseError
deriving DecidableEq

/-! ### String helpers shared by the content-filter embedding -/

/-- `pat` occurs as a contiguous subsequence of `l` (Rust `str::contains`). -/
def containsSeq (pat l : List Char) : Bool :=
  l.tails.any (fun t => pat.isPrefixOf t)

/-- Substring test on strings (Rust `str::contains` with a literal pattern). -/
def containsStr (s pat : String) : Bool :=
  containsSeq pat.data s.data

/-- Rust `str::to_lowercase`, restricted to its ASCII action. -/
def lowerStr (s : String) : String :=
  ⟨s.data.map Char.toLower⟩

/-- Word character of the regex class `\w` (ASCII reading). -/
def isWordChar (c : Char) : Bool :=
  c.isAlphanum || c = '_'

/-- First character of `l` is `c`. -/
def firstCharIs (c : Char) : List Char → Bool
  | x :: _ => x = c
  | [] => false

/-- First character of `l` is a decimal digit (regex `\d`). -/
def firstCharDigit : List Char → Bool
  | x :: _ => x.isDigit
  | [] => false

/-- Regex `\s+` followed by the continuation `k`: at least one whitespace
character, then `k` applied after the maximal whitespace run.  All uses
below continue with a non-whitespace requirement, for which consuming the
maximal run is equivalent to the regex semantics. -/
def wsPlusThen (k : List Char → Bool) : List Char → Bool
  | c :: rest => c.isWhitespace && k (rest.dropWhile Char.isWhitespace)
  | [] => false

/-- Regex `\s*` followed by the single character `c`. -/
def wsStarThen (c : Char) (l : List Char) : Bool :=
  firstCharIs c (l.dropWhile Char.isWhitespace)

/-! ### The fourteen `dangerous_patterns` regexes of `ContentFilter::new` -/

/-- `<script[^>]*>.*?</script>`: an occurrence of `<script`, then
characters other than `>` up to a `>`, then `</script>` somewhere after. -/
def pat_script_tag (s : String) : Bool :=
  s.data.tails.any (fun t =>
    "<script".data.isPrefixOf t &&
      (match (t.drop 7).dropWhile (fun c => !(c = '>')) with
       | [] => false
       | _ :: rest => containsSeq "</script>".data rest))

/-- `javascript:` -/
def pat_js_url (s : String) : Bool := containsStr s "javascript:"

/-- `vbscript:` -/
def pat_vbs_url (s : String) : Bool := containsStr s "vbscript:"

/-- `data:text/html` -/
def pat_data_html (s : String) : Bool := containsStr s "data:text/html"

/-- `on\w+\s*=`: `on`, at least one word character, optional whitespace,
then `=`.  Since `=` is neither a word nor a whitespace character, only
the maximal word run can be followed by a match. -/
def pat_on_attr (s : String) : Bool :=
  s.data.tails.any (fun t =>
    "on".data.isPrefixOf t &&
      (let r := t.drop 2
       let w := r.takeWhile isWordChar
       !w.isEmpty && wsStarThen '=' (r.drop w.length)))

/-- `eval\s*\(` -/
def pat_eval_call (s : String) : Bool :=
  s.data.tails.any (fun t => "eval".data.isPrefixOf t && wsStarThen '(' (t.drop 4))

/-- `setTimeout\s*\(` (note the capital letters: the filter only ever runs
this pattern on the lowercased content, so it can never fire). -/
def pat_settimeout_call (s : String) : Bool :=
  s.data.tails.any (fun t => "setTimeout".data.isPrefixOf t && wsStarThen '(' (t.drop 10))

/-- `setInterval\s*\(` (same capital-letter remark as `setTimeout`). -/
def pat_setinterval_call (s : String) : Bool :=
  s.data.tails.any (fun t => "setInterval".data.isPrefixOf t && wsStarThen '(' (t.drop 11))

/-- Keyword alternation of the first SQL-injection regex. -/
def sqlKeywords : List String :=
  ["union", "select", "insert", "update", "delete", "drop", "create", "alter", "exec"]

/-- `(?i)(union|select|...|exec)\s+` -/
def pat_sql_keyword (s : String) : Bool :=
  s.data.tails.any (fun t =>
    sqlKeywords.any (fun w =>
      w.data.isPrefixOf t &&
        (match t.drop w.data.length with
         | c :: _ => c.isWhitespace
         | [] => false)))

/-- `(or|and)\s+\d+\s*=\s*\d+` anchored at the given position. -/
def orAndNumAt (r : List Char) : Bool :=
  (["or", "and"] : List String).any (fun w =>
    w.data.isPrefixOf r &&
      wsPlusThen (fun r2 =>
        let ds := r2.takeWhile Char.isDigit
        !ds.isEmpty &&
          (match (r2.drop ds.length).dropWhile Char.isWhitespace with
           | c :: r4 => c = '=' && firstCharDigit (r4.dropWhile Char.isWhitespace)
           | [] => false)) (r.drop w.data.length))

/-- `(?i)(\s|^)(or|and)\s+\d+\s*=\s*\d+` -/
def pat_sql_orand_num (s : String) : Bool :=
  orAndNumAt s.data ||
    s.data.tails.any (fun t =>
      match t with
      | c :: rest => c.isWhitespace && orAndNumAt rest
      | [] => false)

/-- The regex class `['\x22]`: a single or double quote. -/
def isQuoteChar (c : Char) : Bool :=
  c = Char.ofNat 39 || c = Char.ofNat 34

/-- `(or|and)\s+['\x22][^'\x22]*['\x22]` anchored at the given position. -/
def orAndQuoteAt (r : List Char) : Bool :=
  (["or", "and"] : List String).any (fun w =>
    w.data.isPrefixOf r &&
      wsPlusThen (fun r2 =>
        match r2 with
        | c :: rest => isQuoteChar c && rest.any isQuoteChar
        | [] => false) (r.drop w.data.length))

/-- `(?i)(\s|^)(or|and)\s+['\x22][^'\x22]*['\x22]` -/
def pat_sql_orand_quote (s : String) : Bool :=
  orAndQuoteAt s.data ||
    s.data.tails.any (fun t =>
      match t with
      | c :: rest => c.isWhitespace && orAndQuoteAt rest
      | [] => false)

/-- `\.\./` -/
def pat_path_traversal_slash (s : String) : Bool := containsStr s "../"

/-- `\.\.\\` -/
def pat_path_traversal_backslash (s : String) : Bool := containsStr s "..\\"

/-- The characters the command-injection pattern was written to name,
besides whitespace: `; | & \x60 $ ( ) \x7b \x7d [ ] < >` (see
`pat_cmd_injection` for why no compiled matcher for them exists in the
program). -/
def cmdInjChars : List Char :=
  [';', '|', '&', Char.ofNat 96, '$', '(', ')',
   Char.ofNat 123, Char.ofNat 125, '[', ']', '<', '>']

/-- Membership in the character set `cmdInjChars` plus whitespace. -/
def isCmdInjChar (c : Char) : Bool :=
  c.isWhitespace || cmdInjChars.contains c

/-- The matcher the fourteenth pattern `[\s;|&\x60$(){}[\]<>]` was
written to denote, reading the inner `[` as a literal.  NO such matcher
exists in the program: under the Rust `regex` crate an unescaped `[`
inside a character class opens a nested class, so this pattern's outer
class is never closed and `Regex::new` fails — see `regexClassOk`,
`content_filter_new` and the theorem `content_filter_new_fails`.  The
function is kept only so that `validate_content` below can embed the
method body as written; no claim's input has its outcome decided by
this pattern. -/
def pat_cmd_injection (s : String) : Bool :=
  s.data.any isCmdInjChar

/-- The fourteen matchers the `dangerous_patterns` vector of
`ContentFilter::new` was written to hold, in source order.  The vector
is in fact never built: the fourteenth `Regex::new` call fails (see
`content_filter_new_fails`) and `ContentFilter::new` propagates the
error, so `validate_content` is unreachable in the program.
`validate_content` below embeds the method body under the counterfactual
that construction succeeded with the intended classes; on the inputs
the claims evaluate (the empty string of C6) no dangerous pattern
fires, so the counterfactual is immaterial there. -/
def dangerous_patterns : List (String → Bool) :=
  [pat_script_tag, pat_js_url, pat_vbs_url, pat_data_html, pat_on_attr,
   pat_eval_call, pat_settimeout_call, pat_setinterval_call,
   pat_sql_keyword, pat_sql_orand_num, pat_sql_orand_quote,
   pat_path_traversal_slash, pat_path_traversal_backslash, pat_cmd_injection]

/-- The fourteen `dangerous_patterns` source strings of
`ContentFilter::new` (security.rs:91-113), verbatim (`\x27`, `\x22`,
`\x60`, `\x7b`, `\x7d` are the quote, double-quote, backtick and brace
characters). -/
def dangerous_pattern_strings : List String :=
  ["<script[^>]*>.*?</script>",
   "javascript:",
   "vbscript:",
   "data:text/html",
   "on\\w+\\s*=",
   "eval\\s*\\(",
   "setTimeout\\s*\\(",
   "setInterval\\s*\\(",
   "(?i)(union|select|insert|update|delete|drop|create|alter|exec)\\s+",
   "(?i)(\\s|^)(or|and)\\s+\\d+\\s*=\\s*\\d+",
   "(?i)(\\s|^)(or|and)\\s+[\x27\x22][^\x27\x22]*[\x27\x22]",
   "\\.\\./",
   "\\.\\.\\\\",
   "[\\s;|&\x60$()\x7b\x7d[\\]<>]"]

/-- The character-class bracket discipline of the Rust `regex` crate's
parser, specialised to what these fourteen patterns exercise: `\`
escapes the next character; an unescaped `[` opens a class — also a
NESTED class when one is already open; an unescaped `]` closes the
innermost open class (outside any class it is a literal).  A pattern
left with an open class at the end fails `Regex::new` with an
unclosed-character-class error. -/
def classScan : Nat → List Char → Bool
  | depth, [] => decide (depth = 0)
  | depth, '\\' :: _ :: rest => classScan depth rest
  | _, ['\\'] => false
  | depth, '[' :: rest => classScan (depth + 1) rest
  | depth, ']' :: rest =>
    match depth with
    | 0 => classScan 0 rest
    | d + 1 => classScan d rest
  | depth, _ :: rest => classScan depth rest

/-- The pattern's character classes are all closed, the aspect of
`Regex::new` that separates the fourteenth pattern from the other
thirteen. -/
def regexClassOk (pat : String) : Bool :=
  classScan 0 pat.data

/-- The regex-construction step of `ContentFilter::new`
(security.rs:113-116): every pattern string is handed to `Regex::new`
and the results are collected; any failure is turned into
`ChatError::configuration_error("Regex invalide: ...")` and propagated
by `?` (the source appends the crate's parse-error text after the
colon; the model keeps the fixed prefix).  The fourteenth pattern has
an unclosed class, so this always fails and no `ContentFilter` is ever
constructed. -/
def content_filter_new : Except ChatError Unit :=
  if dangerous_pattern_strings.all regexClassOk then .ok ()
  else .error (.configurationError "Regex invalide")

/-- The `forbidden_words` set of `ContentFilter::new` (all entries are
already lowercase in the source). -/
def forbidden_words : List String :=
  ["click here", "urgent", "limited time", "act now", "free money",
   "viagra", "casino", "lottery", "winner", "congratulations",
   "script", "eval", "onclick", "onerror", "javascript",
   "vbscript", "expression", "import", "alert",
   "spam", "fuck", "shit", "bitch", "damn",
   "kill yourself", "kys", "suicide", "die"]

/-! ### `SpamDetector` -/

/-- Largest multiplicity of a character of `l`
(`char_counts.values().max().unwrap_or(&0)`). -/
def maxCharCount (l : List Char) : Nat :=
  (l.map (fun c => l.count c)).foldr Nat.max 0

/-- `SpamDetector::detect_character_repetition`: maximal character
frequency over byte length exceeds `0.7` (cross-multiplied). -/
def detect_character_repetition (content : String) : Bool :=
  decide (maxCharCount content.data * 10 > content.utf8ByteSize * 7)

/-- `SpamDetector::detect_excessive_caps`: uppercase over alphabetic
count exceeds `0.5` (cross-multiplied); `false` when there is no
letter. -/
def detect_excessive_caps (content : String) : Bool :=
  let caps := (content.data.filter Char.isUpper).length
  let letters := (content.data.filter Char.isAlpha).length
  if letters = 0 then false
  else decide (caps * 2 > letters)

/-- `SpamDetector::detect_excessive_special_chars`: non-alphanumeric
non-whitespace count over byte length exceeds `0.3`
(cross-multiplied). -/
def detect_excessive_special_chars (content : String) : Bool :=
  let special := (content.data.filter (fun c => !c.isAlphanum && !c.isWhitespace)).length
  decide (special * 10 > content.utf8ByteSize * 3)

/-- The `spam_patterns` array of `SpamDetector::detect_spam_patterns`. -/
def spam_patterns : List String :=
  ["click here now", "limited time offer", "act fast", "free free free",
   "!!!!!!", "buy now", "special offer"]

/-- `SpamDetector::detect_spam_patterns`. -/
def detect_spam_patterns (content : String) : Bool :=
  spam_patterns.any (fun p => containsStr (lowerStr content) p)

/-- `SpamDetector::is_spam` (always `Ok` in the source, so the `Result`
wrapper is dropped). -/
def is_spam (content : String) : Bool :=
  if content.utf8ByteSize < 10 then false
  else
    detect_character_repetition content || detect_excessive_caps content ||
      detect_excessive_special_chars content || detect_spam_patterns content

/-! ### `ToxicityDetector` -/

/-- `(?i)(kill\s+yourself|kys)` -/
def tox_kys (s : String) : Bool :=
  (s.data.tails.any (fun t =>
    "kill".data.isPrefixOf t &&
      wsPlusThen (fun r => "yourself".data.isPrefixOf r) (t.drop 4))) ||
    containsStr s "kys"

/-- `(?i)(go\s+die|should\s+die)` -/
def tox_go_die (s : String) : Bool :=
  (s.data.tails.any (fun t =>
    "go".data.isPrefixOf t &&
      wsPlusThen (fun r => "die".data.isPrefixOf r) (t.drop 2))) ||
    (s.data.tails.any (fun t =>
      "should".data.isPrefixOf t &&
        wsPlusThen (fun r => "die".data.isPrefixOf r) (t.drop 6)))

/-- `(?i)(hate\s+(you|u))` -/
def tox_hate (s : String) : Bool :=
  s.data.tails.any (fun t =>
    "hate".data.isPrefixOf t &&
      wsPlusThen (fun r => "you".data.isPrefixOf r || firstCharIs 'u' r) (t.drop 4))

/-- `(?i)(i\s+will\s+(kill|hurt|harm))` -/
def tox_i_will (s : String) : Bool :=
  s.data.tails.any (fun t =>
    firstCharIs 'i' t &&
      wsPlusThen (fun r =>
        "will".data.isPrefixOf r &&
          wsPlusThen (fun r2 =>
            (["kill", "hurt", "harm"] : List String).any
              (fun w => w.data.isPrefixOf r2)) (r.drop 4)) (t.drop 1))

/-- `(?i)(threat|threaten)` (the first branch subsumes the second). -/
def tox_threat (s : String) : Bool := containsStr s "threat"

/-- `(?i)(racist|sexist|homophobic)` -/
def tox_discrimination (s : String) : Bool :=
  (["racist", "sexist", "homophobic"] : List String).any (fun w => containsStr s w)

/-- `(?i)(n[i1]gg[ea]r)` -/
def tox_slur_n (s : String) : Bool :=
  (["nigger", "n1gger", "niggar", "n1ggar"] : List String).any (fun w => containsStr s w)

/-- `(?i)(f[a4]gg[o0]t)` -/
def tox_slur_f (s : String) : Bool :=
  (["faggot", "f4ggot", "fagg0t", "f4gg0t"] : List String).any (fun w => containsStr s w)

/-- The `toxic_patterns` vector of `ToxicityDetector::new`, in source
order. -/
def toxic_patterns : List (String → Bool) :=
  [tox_kys, tox_go_die, tox_hate, tox_i_will, tox_threat,
   tox_discrimination, tox_slur_n, tox_slur_f]

/-- `ToxicityDetector::is_toxic`: `0.3` per matching pattern on the
lowercased content, `+0.1` for `!!!`, `+0.1` when the uppercase-per-byte
ratio exceeds `0.5`; toxic when the score exceeds `0.6`.  The score is
kept in tenths. -/
def is_toxic (content : String) : Bool :=
  let lower := lowerStr content
  let base : Nat := (toxic_patterns.filter (fun p => p lower)).length * 3
  let s1 : Nat := base + (if containsStr content "!!!" then 1 else 0)
  let s2 : Nat := s1 +
    (if decide ((content.data.filter Char.isUpper).length * 2 >
        content.utf8ByteSize) then 1 else 0)
  decide (s2 > 6)

/-! ### `ContentFilter::sanitize_html` and `validate_content` -/

/-- Fuelled worker for `replaceAll`; the fuel is the input length, which
suffices because every use has a non-empty pattern. -/
def replaceAllFuel (pat rep : List Char) : Nat → List Char → List Char
  | 0, s => s
  | _ + 1, [] => []
  | n + 1, c :: rest =>
    if pat.isPrefixOf (c :: rest) then
      rep ++ replaceAllFuel pat rep n (rest.drop (pat.length - 1))
    else
      c :: replaceAllFuel pat rep n rest

/-- Rust `str::replace`: replace every (left-to-right, non-overlapping)
occurrence of `pat` by `rep`. -/
def replaceAll (s : List Char) (pat rep : String) : List Char :=
  replaceAllFuel pat.data rep.data s.length s

/-- The character filter at the end of `sanitize_html`:
`c.is_ascii() || c.is_alphanumeric() || " .,!?-_@#()[]\x7b\x7d".contains(*c)`. -/
def sanitize_keep (c : Char) : Bool :=
  decide (c.toNat ≤ 127) || c.isAlphanum || " .,!?-_@#()[]\x7b\x7d".data.contains c

/-- `ContentFilter::sanitize_html`: the five `replace` calls in source
order (`<`, `>`, `\x22`, `\x27`, and `&` last), then the character
filter. -/
def sanitize_html (content : String) : String :=
  let s1 := replaceAll content.data "<" "&lt;"
  let s2 := replaceAll s1 ">" "&gt;"
  let s3 := replaceAll s2 "\x22" "&quot;"
  let s4 := replaceAll s3 "\x27" "&#x27;"
  let s5 := replaceAll s4 "&" "&amp;"
  ⟨s5.filter sanitize_keep⟩

/-- `ContentFilter::validate_content`: length gate, dangerous patterns on
the lowercased content, forbidden words, spam, toxicity, then
sanitization.  Every matching dangerous pattern and every forbidden word
produce the same `inappropriate_content` error, so the source's loops are
`List.any`.  Note that in the program this method is unreachable —
`ContentFilter::new` always fails (see `content_filter_new_fails`) — so
this embeds the method body as written, under the counterfactual of a
successful construction. -/
def validate_content (content : String) : Except ChatError String :=
  if 4000 < content.utf8ByteSize then
    .error (.messageTooLong content.utf8ByteSize 4000)
  else
    let content_lower := lowerStr content
    if dangerous_patterns.any (fun p => p content_lower) then
      .error (.inappropriateContent "inappropriate_content")
    else if forbidden_words.any (fun w => containsStr content_lower w) then
      .error (.inappropriateContent "inappropriate_content")
    else if is_spam content then
      .error .spamDetected
    else if is_toxic content then
      .error (.inappropriateContent "inappropriate_content")
    else
      .ok (sanitize_html content)

deriving instance DecidableEq for Except

/-! ### Claims C4, C5, C6 — content filter -/

/-- Claim C4 (refuted at construction time): the claimed rejection of
whitespace and special characters never happens, because the
command-injection pattern `[\s;|&\x60$(){}[\]<>]` does not parse under
the Rust `regex` crate — the unescaped `[` inside the class opens a
NESTED class whose `\]` is an escaped literal, so the final `]` closes
only the nested class and the outer class is never closed.
`Regex::new` fails on this fourteenth pattern, `ContentFilter::new`
propagates the error (security.rs:113-116), the filter is never
constructed, and `validate_content` is unreachable; no input is ever
rejected as the claim states. -/
theorem content_filter_new_fails :
    regexClassOk "[\\s;|&\x60$()\x7b\x7d[\\]<>]" = false ∧
      content_filter_new = .error (.configurationError "Regex invalide") := by
  decide

/-- Claim C5 (refuted by evaluation): `ContentFilter::sanitize_html`
escapes `&` last, so the `&` of an entity produced by an earlier
replacement is escaped again: the single-character input `<` sanitizes
to `&amp;lt;`, not to `&lt;` as the claim and the spec state. -/
theorem sanitize_html_double_escapes_lt :
    sanitize_html "<" = "&amp;lt;" := by decide

/-- Claim C6 (refuted by evaluation): `ContentFilter::validate_content`
has no emptiness check: the empty string passes the length gate, matches
no dangerous pattern, contains no forbidden word, is neither spam nor
toxic, and is returned sanitized as the empty string instead of failing
with an `InvalidInput` error. -/
theorem validate_content_accepts_empty :
    validate_content "" = .ok "" := by decide

/-! ### Claim C3 — `AdvancedRateLimiter::check_limit` (security.rs) -/

/-- The `SecurityAction` enum of `security.rs`. -/
inductive SecurityAction where
  | SendMessage | CreateRoom | JoinRoom | SendDM
  | UploadFile | ChangeSettings | AdminAction
deriving DecidableEq

/-- The `RateLimit` configuration record of `security.rs`. -/
structure RateLimit where
  max_count : Nat
  window_duration : Nat
  burst_limit : Option Nat
deriving DecidableEq

/-- The `limits` map built by `AdvancedRateLimiter::new`; `HashMap::get`
on it is modelled by this function (`UploadFile` and `ChangeSettings`
are not configured). -/
def limits : SecurityAction → Option RateLimit
  | .SendMessage => some ⟨20, 60, some 5⟩
  | .CreateRoom => some ⟨3, 300, none⟩
  | .JoinRoom => some ⟨10, 60, some 3⟩
  | .SendDM => some ⟨15, 60, some 3⟩
  | .AdminAction => some ⟨100, 60, some 10⟩
  | _ => none

/-- The `actions.retain(...)` step of `check_limit`: keep the timestamps
`t` with `now.duration_since(t).unwrap_or(ZERO) <= window`, i.e.
`now - t ≤ W` in truncated `Nat` subtraction. -/
def retainWindow (now W : Nat) (l : List Nat) : List Nat :=
  l.filter (fun t => decide (now - t ≤ W))

/-- `AdvancedRateLimiter::check_limit` for one `(user_id, action)`
bucket (the `user_actions` map keys buckets by `(user, action)` and
never mixes them, so one bucket models any fixed user and action).  The
returned list is the mutated bucket: expired entries are dropped even on
failure, and `now` is appended exactly on success. -/
def check_limit (action : SecurityAction) (now : Nat) (bucket : List Nat) :
    List Nat × Except ChatError Unit :=
  match limits action with
  | none => (bucket, .error (.configurationError "Action non configurée"))
  | some lim =>
    let actions := retainWindow now lim.window_duration bucket
    if lim.max_count ≤ actions.length then
      (actions, .error (.rateLimitExceeded "rate_limit"))
    else
      match lim.burst_limit with
      | some b =>
        if b ≤ (actions.filter (fun t => decide (now - t ≤ 10))).length then
          (actions, .error (.rateLimitExceeded "rate_limit"))
        else (actions ++ [now], .ok ())
      | none => (actions ++ [now], .ok ())

/-- A sequence of `check_limit` calls at the given times against one
bucket; returns the times of the calls that returned `Ok`. -/
def run_limiter (action : SecurityAction) (bucket : List Nat) : List Nat → List Nat
  | [] => []
  | now :: rest =>
    let step := check_limit action now bucket
    match step.2 with
    | .ok _ => now :: run_limiter action step.1 rest
    | .error _ => run_limiter action step.1 rest

/-- `t` lies in the closed window `[a, a + W]`. -/
def inW (a W t : Nat) : Bool := decide (a ≤ t ∧ t ≤ a + W)

theorem length_filter_le_of_imp {α : Type} {q r : α → Bool} (p : List α)
    (h : ∀ s, q s = true → r s = true) :
    (p.filter q).length ≤ (p.filter r).length := by
  have he : p.filter q = (p.filter r).filter q := by
    rw [List.filter_filter]
    apply List.filter_congr
    intro s _
    by_cases hq : q s = true
    · simp [hq, h s hq]
    · simp [Bool.eq_false_iff.mpr hq]
  rw [he]
  exact List.length_filter_le _ _

theorem retain_filter_window (W prev now : Nat) (h : prev ≤ now) (p : List Nat) :
    retainWindow now W (p.filter (fun s => decide (prev - s ≤ W))) =
      p.filter (fun s => decide (now - s ≤ W)) := by
  unfold retainWindow
  rw [List.filter_filter]
  apply List.filter_congr
  intro s _
  by_cases hf : now - s ≤ W
  · have : prev - s ≤ W := by omega
    simp [hf, this]
  · simp [hf]

theorem run_limiter_cons_eq (action : SecurityAction) (bucket : List Nat)
    (now : Nat) (rest : List Nat) :
    run_limiter action bucket (now :: rest) =
      match (check_limit action now bucket).2 with
      | .ok _ => now :: run_limiter action (check_limit action now bucket).1 rest
      | .error _ => run_limiter action (check_limit action now bucket).1 rest := rfl

theorem length_filter_append_single {α : Type} (f : α → Bool) (p : List α) (x : α) :
    ((p ++ [x]).filter f).length =
      (p.filter f).length + (if f x then 1 else 0) := by
  rw [List.filter_append]
  by_cases hx : f x = true
  · simp [hx]
  · simp [Bool.eq_false_iff.mpr hx]

theorem length_filter_cons_if {α : Type} (f : α → Bool) (x : α) (l : List α) :
    ((x :: l).filter f).length =
      (l.filter f).length + (if f x then 1 else 0) := by
  by_cases hx : f x = true
  · simp [List.filter_cons, hx]
  · simp [List.filter_cons, Bool.eq_false_iff.mpr hx]

/-- Strengthened induction for the main window bound: `p` is the list of
previously accepted times, the bucket is `p` filtered at some earlier
instant `prev`, and the count of `p` inside the window `[a, a + W]` is
carried through the trace. -/
theorem run_window_aux (action : SecurityAction) (lim : RateLimit)
    (hA : limits action = some lim) (a : Nat) :
    ∀ ts : List Nat, List.Pairwise (· ≤ ·) ts →
      ∀ (p : List Nat) (prev : Nat), (∀ t ∈ ts, prev ≤ t) →
        (p.filter (fun t => inW a lim.window_duration t)).length ≤ lim.max_count →
        ((run_limiter action (p.filter (fun s => decide (prev - s ≤ lim.window_duration)))
              ts).filter (fun t => inW a lim.window_duration t)).length +
            (p.filter (fun t => inW a lim.window_duration t)).length ≤ lim.max_count := by
  intro ts
  induction ts with
  | nil =>
    intro _ p prev _ hcount
    simpa [run_limiter] using hcount
  | cons now rest ih =>
    intro hm p prev hprev hcount
    rw [List.pairwise_cons] at hm
    obtain ⟨hm1, hm2⟩ := hm
    have hpn : prev ≤ now := hprev now (by simp)
    have hretain :
        retainWindow now lim.window_duration
            (p.filter (fun s => decide (prev - s ≤ lim.window_duration))) =
          p.filter (fun s => decide (now - s ≤ lim.window_duration)) :=
      retain_filter_window _ _ _ hpn p
    -- goal in the case of a failing call
    have hfail :
        ((run_limiter action (p.filter (fun s => decide (now - s ≤ lim.window_duration)))
              rest).filter (fun t => inW a lim.window_duration t)).length +
            (p.filter (fun t => inW a lim.window_duration t)).length ≤ lim.max_count :=
      ih hm2 p now hm1 hcount
    -- goal in the case of a succeeding call
    have hsucc :
        ¬ lim.max_count ≤
            (p.filter (fun s => decide (now - s ≤ lim.window_duration))).length →
        ((now :: run_limiter action
              ((p.filter (fun s => decide (now - s ≤ lim.window_duration))) ++ [now])
              rest).filter (fun t => inW a lim.window_duration t)).length +
            (p.filter (fun t => inW a lim.window_duration t)).length ≤ lim.max_count := by
      intro hfull
      have hbucket :
          (p.filter (fun s => decide (now - s ≤ lim.window_duration))) ++ [now] =
            (p ++ [now]).filter (fun s => decide (now - s ≤ lim.window_duration)) := by
        rw [List.filter_append]
        simp
      have hlen :
          ((p ++ [now]).filter (fun t => inW a lim.window_duration t)).length =
            (p.filter (fun t => inW a lim.window_duration t)).length +
              (if inW a lim.window_duration now then 1 else 0) :=
        length_filter_append_single _ p now
      have hple :
          inW a lim.window_duration now = true →
            (p.filter (fun t => inW a lim.window_duration t)).length ≤
              (p.filter (fun s => decide (now - s ≤ lim.window_duration))).length := by
        intro hin
        apply length_filter_le_of_imp
        intro s hs
        simp only [inW, decide_eq_true_eq] at hs hin ⊢
        omega
      have hcount' :
          ((p ++ [now]).filter (fun t => inW a lim.window_duration t)).length ≤
            lim.max_count := by
        rw [hlen]
        by_cases hin : inW a lim.window_duration now = true
        · have h2 := hple hin
          rw [if_pos hin]
          omega
        · rw [if_neg hin]
          omega
      have key := ih hm2 (p ++ [now]) now hm1 hcount'
      rw [hlen] at key
      rw [hbucket, length_filter_cons_if]
      omega
    rw [run_limiter_cons_eq]
    by_cases hfull :
        lim.max_count ≤
          (p.filter (fun s => decide (now - s ≤ lim.window_duration))).length
    · have hstep :
          check_limit action now
              (p.filter (fun s => decide (prev - s ≤ lim.window_duration))) =
            (p.filter (fun s => decide (now - s ≤ lim.window_duration)),
              .error (.rateLimitExceeded "rate_limit")) := by
        simp only [check_limit, hA, hretain]
        rw [if_pos hfull]
      rw [hstep]
      exact hfail
    · cases hb : lim.burst_limit with
      | none =>
        have hstep :
            check_limit action now
                (p.filter (fun s => decide (prev - s ≤ lim.window_duration))) =
              (p.filter (fun s => decide (now - s ≤ lim.window_duration)) ++ [now],
                .ok ()) := by
          simp only [check_limit, hA, hretain, hb]
          rw [if_neg hfull]
        rw [hstep]
        exact hsucc hfull
      | some b =>
        by_cases hburst :
            b ≤ ((p.filter (fun s => decide (now - s ≤ lim.window_duration))).filter
                (fun t => decide (now - t ≤ 10))).length
        · have hstep :
              check_limit action now
                  (p.filter (fun s => decide (prev - s ≤ lim.window_duration))) =
                (p.filter (fun s => decide (now - s ≤ lim.window_duration)),
                  .error (.rateLimitExceeded "rate_limit")) := by
            simp only [check_limit, hA, hretain, hb]
            rw [if_neg hfull, if_pos hburst]
          rw [hstep]
          exact hfail
        · have hstep :
              check_limit action now
                  (p.filter (fun s => decide (prev - s ≤ lim.window_duration))) =
                (p.filter (fun s => decide (now - s ≤ lim.window_duration)) ++ [now],
                  .ok ()) := by
            simp only [check_limit, hA, hretain, hb]
            rw [if_neg hfull, if_neg hburst]
          rw [hstep]
          exact hsucc hfull

/-- Strengthened induction for the burst bound over the 10-second
sub-window `[c, c + 10]`; needs `10 ≤ W` because the burst count is
taken over the already window-filtered bucket (true of every configured
action). -/
theorem run_burst_aux (action : SecurityAction) (lim : RateLimit) (b : Nat)
    (hA : limits action = some lim) (hb : lim.burst_limit = some b)
    (h10 : 10 ≤ lim.window_duration) (c : Nat) :
    ∀ ts : List Nat, List.Pairwise (· ≤ ·) ts →
      ∀ (p : List Nat) (prev : Nat), (∀ t ∈ ts, prev ≤ t) →
        (p.filter (fun t => inW c 10 t)).length ≤ b →
        ((run_limiter action (p.filter (fun s => decide (prev - s ≤ lim.window_duration)))
              ts).filter (fun t => inW c 10 t)).length +
            (p.filter (fun t => inW c 10 t)).length ≤ b := by
  intro ts
  induction ts with
  | nil =>
    intro _ p prev _ hcount
    simpa [run_limiter] using hcount
  | cons now rest ih =>
    intro hm p prev hprev hcount
    rw [List.pairwise_cons] at hm
    obtain ⟨hm1, hm2⟩ := hm
    have hpn : prev ≤ now := hprev now (by simp)
    have hretain :
        retainWindow now lim.window_duration
            (p.filter (fun s => decide (prev - s ≤ lim.window_duration))) =
          p.filter (fun s => decide (now - s ≤ lim.window_duration)) :=
      retain_filter_window _ _ _ hpn p
    have hfail :
        ((run_limiter action (p.filter (fun s => decide (now - s ≤ lim.window_duration)))
              rest).filter (fun t => inW c 10 t)).length +
            (p.filter (fun t => inW c 10 t)).length ≤ b :=
      ih hm2 p now hm1 hcount
    have hsucc :
        ¬ b ≤ ((p.filter (fun s => decide (now - s ≤ lim.window_duration))).filter
            (fun t => decide (now - t ≤ 10))).length →
        ((now :: run_limiter action
              ((p.filter (fun s => decide (now - s ≤ lim.window_duration))) ++ [now])
              rest).filter (fun t => inW c 10 t)).length +
            (p.filter (fun t => inW c 10 t)).length ≤ b := by
      intro hburst
      have hbucket :
          (p.filter (fun s => decide (now - s ≤ lim.window_duration))) ++ [now] =
            (p ++ [now]).filter (fun s => decide (now - s ≤ lim.window_duration)) := by
        rw [List.filter_append]
        simp
      have hlen :
          ((p ++ [now]).filter (fun t => inW c 10 t)).length =
            (p.filter (fun t => inW c 10 t)).length +
              (if inW c 10 now then 1 else 0) :=
        length_filter_append_single _ p now
      have hple :
          inW c 10 now = true →
            (p.filter (fun t => inW c 10 t)).length ≤
              ((p.filter (fun s => decide (now - s ≤ lim.window_duration))).filter
                (fun t => decide (now - t ≤ 10))).length := by
        intro hin
        rw [List.filter_filter]
        apply length_filter_le_of_imp
        intro s hs
        simp only [inW, decide_eq_true_eq] at hs hin
        simp only [Bool.and_eq_true, decide_eq_true_eq]
        omega
      have hcount' :
          ((p ++ [now]).filter (fun t => inW c 10 t)).length ≤ b := by
        rw [hlen]
        by_cases hin : inW c 10 now = true
        · have h2 := hple hin
          rw [if_pos hin]
          omega
        · rw [if_neg hin]
          omega
      have key := ih hm2 (p ++ [now]) now hm1 hcount'
      rw [hlen] at key
      rw [hbucket, length_filter_cons_if]
      omega
    rw [run_limiter_cons_eq]
    by_cases hfull :
        lim.max_count ≤
          (p.filter (fun s => decide (now - s ≤ lim.window_duration))).length
    · have hstep :
          check_limit action now
              (p.filter (fun s => decide (prev - s ≤ lim.window_duration))) =
            (p.filter (fun s => decide (now - s ≤ lim.window_duration)),
              .error (.rateLimitExceeded "rate_limit")) := by
        simp only [check_limit, hA, hretain]
        rw [if_pos hfull]
      rw [hstep]
      exact hfail
    · by_cases hburst :
          b ≤ ((p.filter (fun s => decide (now - s ≤ lim.window_duration))).filter
              (fun t => decide (now - t ≤ 10))).length
      · have hstep :
            check_limit action now
                (p.filter (fun s => decide (prev - s ≤ lim.window_duration))) =
              (p.filter (fun s => decide (now - s ≤ lim.window_duration)),
                .error (.rateLimitExceeded "rate_limit")) := by
          simp only [check_limit, hA, hretain, hb]
          rw [if_neg hfull, if_pos hburst]
        rw [hstep]
        exact hfail
      · have hstep :
            check_limit action now
                (p.filter (fun s => decide (prev - s ≤ lim.window_duration))) =
              (p.filter (fun s => decide (now - s ≤ lim.window_duration)) ++ [now],
                .ok ()) := by
          simp only [check_limit, hA, hretain, hb]
          rw [if_neg hfull, if_neg hburst]
        rw [hstep]
        exact hsucc hburst

/-- Claim C3: for any user and configured action and any monotone
sequence of call times (`SystemTime::now()` read at each call), the
number of `check_limit` calls that return `Ok` with times inside any
sliding window `[a, a + W]` of the configured length `W` never exceeds
the configured `max_count`, and when a `burst_limit` is configured the
number of `Ok` calls inside any 10-second sub-window `[c, c + 10]` never
exceeds it. -/
theorem rate_limiter_sliding_window (action : SecurityAction) (lim : RateLimit)
    (hA : limits action = some lim) (ts : List Nat)
    (hmono : List.Pairwise (· ≤ ·) ts) (a c : Nat) :
    ((run_limiter action [] ts).filter
        (fun t => inW a lim.window_duration t)).length ≤ lim.max_count ∧
      ∀ b, lim.burst_limit = some b →
        ((run_limiter action [] ts).filter (fun t => inW c 10 t)).length ≤ b := by
  have hnil :
      ([] : List Nat) =
        ([] : List Nat).filter (fun s => decide (0 - s ≤ lim.window_duration)) := rfl
  constructor
  · have h := run_window_aux action lim hA a ts hmono [] 0
      (fun t _ => Nat.zero_le t) (by simp)
    rw [← hnil] at h
    simpa using h
  · intro b hb
    have h10 : 10 ≤ lim.window_duration := by
      cases action <;> simp only [limits] at hA <;>
        first
          | (cases hA; decide)
          | cases hA
    have h := run_burst_aux action lim b hA hb h10 c ts hmono [] 0
      (fun t _ => Nat.zero_le t) (by simp)
    rw [← hnil] at h
    simpa using h

/-- Witness for claim C3: four rapid `SendMessage` calls at times
`0, 1, 2, 3` stay within the window cap of 20. -/
theorem rate_limiter_sliding_window_witness :
    ((run_limiter SecurityAction.SendMessage [] [0, 1, 2, 3]).filter
        (fun t => inW 0 60 t)).length ≤ 20 :=
  (rate_limiter_sliding_window SecurityAction.SendMessage ⟨20, 60, some 5⟩ rfl
    [0, 1, 2, 3] (by simp [List.pairwise_cons]) 0 0).1

/-! ### The unified message store (message_store.rs) -/

/-- The `MessageType` enum (`message_store.rs`), stored as
`room_message` / `direct_message` / `system_message`. -/
inductive MessageType where
  | room_message | direct_message | system_message
deriving DecidableEq

/-- The `MessageStatus` enum, stored as `sent` / `delivered` / `read` /
`edited` / `deleted`. -/
inductive MessageStatus where
  | sent | delivered | read | edited | deleted
deriving DecidableEq

/-- A row of the `messages` table, restricted to the columns the claims
touch (attachments, mentions and moderation flags are omitted). -/
structure MsgRow where
  id : Int
  message_type : MessageType
  content : String
  author_id : Int
  author_username : String
  room_id : Option String
  recipient_id : Option Int
  recipient_username : Option String
  created_at : Int
  updated_at : Option Int
  status : MessageStatus
  is_pinned : Bool
  is_edited : Bool
  original_content : Option String
  parent_message_id : Option Int
  thread_count : Int
deriving DecidableEq

/-- A row of the `message_reactions` table. -/
structure ReactionRow where
  message_id : Int
  user_id : Int
  emoji : String
  created_at : Int
deriving DecidableEq

/-- A row of the `moderation_log` table. -/
structure ModRow where
  moderator_id : Int
  target_type : String
  target_id : Int
  action : String
  details : String
  created_at : Int
deriving DecidableEq

/-- The database state reachable from the `MessageStore` pool: the
`messages`, `message_reactions`, `user_blocks` (pairs of
`(blocker_id, blocked_id)`) and `moderation_log` tables, plus the id
sequence backing `RETURNING id`. -/
structure Db where
  next_id : Int
  messages : List MsgRow
  reactions : List ReactionRow
  blocks : List (Int × Int)
  moderation_log : List ModRow
deriving DecidableEq

/-- `MessageStore::is_user_blocked(user1, user2)`: the `user_blocks`
table has a row with `blocker_id = user2` and `blocked_id = user1`
(the source binds `$1 := user2_id` and `$2 := user1_id`). -/
def is_user_blocked (db : Db) (user1_id user2_id : Int) : Bool :=
  db.blocks.any (fun p => decide (p.1 = user2_id) && decide (p.2 = user1_id))

/-- `MessageStore::get_message_by_id`, restricted to the row lookup (the
reaction/mention hydration does not alter the row columns). -/
def get_message_by_id (db : Db) (message_id : Int) : Option MsgRow :=
  db.messages.find? (fun m => decide (m.id = message_id))

/-- `MessageStore::send_direct_message`: refuse when the recipient has
blocked the author, otherwise insert a `direct_message` row (id from the
sequence, `status = sent`), bump the parent thread count when replying,
and return the hydrated row. -/
def send_direct_message (db : Db) (author_id : Int) (author_username : String)
    (recipient_id : Int) (recipient_username : String) (content : String)
    (parent_message_id : Option Int) (now : Int) : Db × Except ChatError MsgRow :=
  if is_user_blocked db author_id recipient_id then
    (db, .error (.permissionDenied "Utilisateur bloqué"))
  else
    let row : MsgRow :=
      { id := db.next_id, message_type := .direct_message, content := content,
        author_id := author_id, author_username := author_username,
        room_id := none, recipient_id := some recipient_id,
        recipient_username := some recipient_username, created_at := now,
        updated_at := none, status := .sent, is_pinned := false,
        is_edited := false, original_content := none,
        parent_message_id := parent_message_id, thread_count := 0 }
    let msgs1 := db.messages ++ [row]
    let msgs2 :=
      match parent_message_id with
      | some parent =>
        msgs1.map (fun m =>
          if m.id = parent then { m with thread_count := m.thread_count + 1 }
          else m)
      | none => msgs1
    let db' := { db with messages := msgs2, next_id := db.next_id + 1 }
    match get_message_by_id db' row.id with
    | some m => (db', .ok m)
    | none => (db', .error .databaseError)

/-- The `WHERE` clause of `get_room_history`: same room, kind
`room_message`, not deleted, top-level only unless `include_threads`,
and `id < before_id` when paginating. -/
def room_history_pred (room_id : String) (include_threads : Bool)
    (before_id : Option Int) (m : MsgRow) : Bool :=
  decide (m.room_id = some room_id) &&
    decide (m.message_type = MessageType.room_message) &&
    decide (m.status ≠ MessageStatus.deleted) &&
    (include_threads || decide (m.parent_message_id = none)) &&
    (match before_id with
     | some b => decide (m.id < b)
     | none => true)

/-- Insert `m` into a list already sorted by `created_at` descending. -/
def insertDesc (m : MsgRow) : List MsgRow → List MsgRow
  | [] => [m]
  | x :: xs =>
    if x.created_at ≤ m.created_at then m :: x :: xs else x :: insertDesc m xs

/-- `ORDER BY created_at DESC` as an insertion sort. -/
def sortDesc : List MsgRow → List MsgRow
  | [] => []
  | x :: xs => insertDesc x (sortDesc xs)

/-- `MessageStore::get_room_history`: filter, sort descending by
`created_at`, and apply `LIMIT limit` — the limit is interpolated into
the SQL verbatim, with no clamping; a negative limit is a Postgres
error, surfaced as `ChatError::Database`. -/
def get_room_history (db : Db) (room_id : String) (limit : Int)
    (before_id : Option Int) (include_threads : Bool) :
    Except ChatError (List MsgRow) :=
  if limit < 0 then .error .databaseError
  else
    .ok ((sortDesc (db.messages.filter
        (room_history_pred room_id include_threads before_id))).take limit.toNat)

/-- The `WHERE` clause of the pinned-count query:
`room_id = $1 AND is_pinned = true`. -/
def pinPred (room_id : String) (m : MsgRow) : Bool :=
  decide (m.room_id = some room_id) && m.is_pinned

/-- Number of pinned messages of a room
(`SELECT COUNT(*) ... WHERE room_id = $1 AND is_pinned = true`). -/
def pinnedCount (db : Db) (room_id : String) : Nat :=
  (db.messages.filter (pinPred room_id)).length

/-- The message belongs to the room
(`EXISTS(SELECT 1 FROM messages WHERE id = $1 AND room_id = $2)`). -/
def message_in_room (db : Db) (message_id : Int) (room_id : String) : Bool :=
  db.messages.any (fun m => decide (m.id = message_id) && decide (m.room_id = some room_id))

/-- The `moderation_log` row written by a successful `pin_room_message`. -/
def pinModEntry (message_id : Int) (room_id : String) (moderator_id : Int)
    (is_pinned : Bool) (now : Int) : ModRow :=
  { moderator_id := moderator_id, target_type := "message",
    target_id := message_id,
    action := if is_pinned then "pin" else "unpin",
    details := "Message " ++ (if is_pinned then "épinglé" else "désépinglé") ++
      " dans le salon " ++ room_id,
    created_at := now }

/-- `MessageStore::pin_room_message`: verify the message belongs to the
room, enforce the 10-pin cap when pinning, update the row, and append
the moderation-log entry. -/
def pin_room_message (db : Db) (message_id : Int) (room_id : String)
    (moderator_id : Int) (is_pinned : Bool) (now : Int) :
    Db × Except ChatError Unit :=
  if ¬ message_in_room db message_id room_id then
    (db, .error (.configurationError "Message non trouvé dans ce salon"))
  else if is_pinned && decide (10 ≤ pinnedCount db room_id) then
    (db, .error (.configurationError
      "Limite de messages épinglés atteinte (10 par salon)"))
  else
    ({ db with
        messages := db.messages.map (fun m =>
          if m.id = message_id then
            { m with
                is_pinned := is_pinned,
                updated_at := some now }
          else m),
        moderation_log := db.moderation_log ++
          [pinModEntry message_id room_id moderator_id is_pinned now] },
      .ok ())

/-- `MessageStore::edit_message`: author-only; on a content-changing
edit the previous content is offered to `COALESCE(original_content, $3)`,
which keeps an already present snapshot; `is_edited` and `updated_at`
are always set. -/
def edit_message (db : Db) (message_id : Int) (user_id : Int)
    (new_content : String) (now : Int) : Db × Except ChatError MsgRow :=
  match db.messages.find? (fun m =>
      decide (m.id = message_id) && decide (m.status ≠ MessageStatus.deleted)) with
  | none => (db, .error (.configurationError "Message non trouvé"))
  | some m =>
    if m.author_id ≠ user_id then
      (db, .error (.permissionDenied "Seul l\x27auteur peut éditer ce message"))
    else
      let original_content : Option String :=
        if m.content ≠ new_content then some m.content else none
      let db' := { db with
        messages := db.messages.map (fun r =>
          if r.id = message_id then
            { r with
                content := new_content,
                updated_at := some now,
                is_edited := true,
                original_content := r.original_content.or original_content }
          else r) }
      (db',
        match get_message_by_id db' message_id with
        | some r => .ok r
        | none => .error .databaseError)

/-- The reaction row of `(message_id, user_id, emoji)`. -/
def reactionMatches (message_id user_id : Int) (emoji : String)
    (r : ReactionRow) : Bool :=
  decide (r.message_id = message_id) && decide (r.user_id = user_id) &&
    decide (r.emoji = emoji)

/-- `MessageStore::add_reaction`: the message must exist and not be
deleted; the triple must not already exist; then the row is inserted. -/
def add_reaction (db : Db) (message_id user_id : Int) (emoji : String)
    (now : Int) : Db × Except ChatError Unit :=
  if ¬ db.messages.any (fun m =>
      decide (m.id = message_id) && decide (m.status ≠ MessageStatus.deleted)) then
    (db, .error (.configurationError "Message non trouvé"))
  else if db.reactions.any (reactionMatches message_id user_id emoji) then
    (db, .error .reactionAlreadyExists)
  else
    ({ db with reactions := db.reactions ++
        [{ message_id := message_id, user_id := user_id, emoji := emoji,
           created_at := now }] },
      .ok ())

/-- `MessageStore::remove_reaction`: `DELETE` every row of the triple;
`ReactionNotFound` when `rows_affected` is zero. -/
def remove_reaction (db : Db) (message_id user_id : Int) (emoji : String) :
    Db × Except ChatError Unit :=
  let kept := db.reactions.filter (fun r => ! reactionMatches message_id user_id emoji r)
  if (db.reactions.filter (reactionMatches message_id user_id emoji)).length = 0 then
    ({ db with reactions := kept }, .error .reactionNotFound)
  else
    ({ db with reactions := kept }, .ok ())

/-! ### Concrete database states used by witnesses and counterexamples -/

/-- A plain non-deleted room message by user 1 in room `general`. -/
def baseMsg : MsgRow :=
  { id := 1, message_type := .room_message, content := "hello",
    author_id := 1, author_username := "alice", room_id := some "general",
    recipient_id := none, recipient_username := none, created_at := 0,
    updated_at := none, status := .sent, is_pinned := false,
    is_edited := false, original_content := none, parent_message_id := none,
    thread_count := 0 }

/-- A store state in which user 2 has blocked user 1 and no message
exists. -/
def dbBlockExample : Db :=
  { next_id := 1, messages := [], reactions := [], blocks := [(2, 1)],
    moderation_log := [] }

/-- A store state holding the single room message `baseMsg`. -/
def dbRoomExample : Db :=
  { next_id := 2, messages := [baseMsg], reactions := [], blocks := [],
    moderation_log := [] }

/-- Claim C1 (refuted by evaluation): with user 2 having blocked user 1
(`user_blocks` row `(2, 1)`), user 1's direct message to user 2 does not
complete silently — `MessageStore::send_direct_message` returns
`Err(PermissionDenied("Utilisateur bloqué"))` to the sender (and inserts
no row), while the claim, the spec's privacy exception and the handler's
own comment require success with a silent drop. -/
theorem send_direct_message_blocked_errors :
    send_direct_message dbBlockExample 1 "alice" 2 "bob" "salut" none 0 =
      (dbBlockExample, .error (.permissionDenied "Utilisateur bloqué")) := by
  decide

/-! ### Claim C2 — `MessageStore::get_room_history` -/

theorem mem_insertDesc {m x : MsgRow} :
    ∀ {l : List MsgRow}, x ∈ insertDesc m l ↔ x = m ∨ x ∈ l := by
  intro l
  induction l with
  | nil => simp [insertDesc]
  | cons y ys ih =>
    unfold insertDesc
    by_cases hc : y.created_at ≤ m.created_at
    · rw [if_pos hc]
      simp [List.mem_cons]
    · rw [if_neg hc]
      simp only [List.mem_cons, ih]
      tauto

theorem mem_sortDesc {x : MsgRow} : ∀ {l : List MsgRow}, x ∈ sortDesc l ↔ x ∈ l := by
  intro l
  induction l with
  | nil => simp [sortDesc]
  | cons y ys ih =>
    unfold sortDesc
    rw [mem_insertDesc]
    simp [List.mem_cons, ih]

theorem pairwise_insertDesc (m : MsgRow) (l : List MsgRow)
    (h : l.Pairwise (fun x y => y.created_at ≤ x.created_at)) :
    (insertDesc m l).Pairwise (fun x y => y.created_at ≤ x.created_at) := by
  induction l with
  | nil => simp [insertDesc]
  | cons x xs ih =>
    rw [List.pairwise_cons] at h
    obtain ⟨hx, hxs⟩ := h
    unfold insertDesc
    by_cases hc : x.created_at ≤ m.created_at
    · rw [if_pos hc, List.pairwise_cons]
      refine ⟨?_, List.pairwise_cons.mpr ⟨hx, hxs⟩⟩
      intro b hb
      rcases List.mem_cons.mp hb with hb | hb
      · subst hb; exact hc
      · exact le_trans (hx b hb) hc
    · rw [if_neg hc, List.pairwise_cons]
      refine ⟨?_, ih hxs⟩
      intro b hb
      rcases mem_insertDesc.mp hb with hb | hb
      · subst hb; omega
      · exact hx b hb

theorem pairwise_sortDesc :
    ∀ l : List MsgRow,
      (sortDesc l).Pairwise (fun x y => y.created_at ≤ x.created_at) := by
  intro l
  induction l with
  | nil => simp [sortDesc]
  | cons x xs ih => exact pairwise_insertDesc x _ ih

/-- Claim C2, amended: a successful `get_room_history` returns only
non-deleted `room_message` rows of the requested room, sorted by
`created_at` descending, and at most `max(limit, 0)` of them; the limit
itself is NOT bounded to `[1, 500]` — it is interpolated into the SQL
`LIMIT` verbatim (see the counterexample for the claim as stated). -/
theorem get_room_history_spec (db : Db) (room_id : String) (limit : Int)
    (before_id : Option Int) (include_threads : Bool) (h : List MsgRow)
    (hres : get_room_history db room_id limit before_id include_threads = .ok h) :
    (∀ m ∈ h, m.room_id = some room_id ∧ m.message_type = .room_message ∧
        m.status ≠ .deleted) ∧
      h.Pairwise (fun x y => y.created_at ≤ x.created_at) ∧
      h.length ≤ limit.toNat := by
  unfold get_room_history at hres
  by_cases hneg : limit < 0
  · rw [if_pos hneg] at hres
    cases hres
  · rw [if_neg hneg] at hres
    have hh :
        h = (sortDesc (db.messages.filter
            (room_history_pred room_id include_threads before_id))).take limit.toNat := by
      cases hres
      rfl
    subst hh
    refine ⟨?_, ?_, ?_⟩
    · intro m hm
      have hm2 : m ∈ sortDesc (db.messages.filter
          (room_history_pred room_id include_threads before_id)) :=
        List.take_subset _ _ hm
      have hm3 := mem_sortDesc.mp hm2
      have hm4 := (List.mem_filter.mp hm3).2
      unfold room_history_pred at hm4
      simp only [Bool.and_eq_true, decide_eq_true_eq] at hm4
      exact ⟨hm4.1.1.1.1, hm4.1.1.1.2, hm4.1.1.2⟩
    · exact (pairwise_sortDesc _).sublist (List.take_sublist _ _)
    · exact List.length_take_le _ _

/-- Witness for claim C2 (amended form): a concrete call on
`dbRoomExample` returning its one message. -/
theorem get_room_history_spec_witness :
    baseMsg.room_id = some "general" ∧ baseMsg.status ≠ .deleted :=
  have h := get_room_history_spec dbRoomExample "general" 5 none true [baseMsg]
    (by decide)
  ⟨(h.1 baseMsg (by decide)).1, (h.1 baseMsg (by decide)).2.2⟩

/-- Counterexample for claim C2 as stated: the limit is not bounded to
`[1, 500]`.  A call with `limit = 0` on a room with one live message
succeeds and returns the empty list — the limit was neither rejected as
invalid nor clamped to at least 1 (the same call with `limit = 1`
returns the message). -/
theorem get_room_history_limit_not_bounded :
    get_room_history dbRoomExample "general" 0 none true = .ok [] ∧
      get_room_history dbRoomExample "general" 1 none true = .ok [baseMsg] := by
  decide

/-! ### Claim C7 — `MessageStore::edit_message` -/

/-- Claim C7, amended: only the author may edit (anyone else receives
`PermissionDenied` and the store is unchanged); a first edit that
changes the content snapshots the previous content into
`original_content`; once `original_content` is set, further edits leave
it unchanged (`COALESCE`); rows of other messages are untouched.  A
first edit to an identical content sets `is_edited` and `updated_at`
but snapshots nothing (see the counterexample). -/
theorem edit_message_spec (db : Db) (mid uid : Int) (c : String) (now : Int)
    (m : MsgRow)
    (hfind : db.messages.find? (fun x =>
        decide (x.id = mid) && decide (x.status ≠ MessageStatus.deleted)) = some m) :
    (m.author_id ≠ uid →
        edit_message db mid uid c now =
          (db, .error (.permissionDenied "Seul l\x27auteur peut éditer ce message"))) ∧
      (m.author_id = uid → m.original_content = none → m.content ≠ c →
        ({ m with
            content := c, updated_at := some now, is_edited := true,
            original_content := some m.content } : MsgRow) ∈
          (edit_message db mid uid c now).1.messages) ∧
      (m.author_id = uid → ∀ c0, m.original_content = some c0 →
        ({ m with
            content := c, updated_at := some now, is_edited := true,
            original_content := some c0 } : MsgRow) ∈
          (edit_message db mid uid c now).1.messages) ∧
      (m.author_id = uid → ∀ r ∈ db.messages, r.id ≠ mid →
        r ∈ (edit_message db mid uid c now).1.messages) := by
  have hpred := List.find?_some hfind
  simp only [Bool.and_eq_true, decide_eq_true_eq] at hpred
  have hmid : m.id = mid := hpred.1
  have hmem : m ∈ db.messages := List.mem_of_find?_eq_some hfind
  refine ⟨?_, ?_, ?_, ?_⟩
  · intro hauth
    unfold edit_message
    rw [hfind]
    simp only [if_pos hauth]
  · intro hauth horig hneq
    unfold edit_message
    rw [hfind]
    simp only [if_neg (by simp [hauth] : ¬ m.author_id ≠ uid)]
    refine List.mem_map.mpr ⟨m, hmem, ?_⟩
    rw [if_pos hmid, horig, if_pos hneq]
    rfl
  · intro hauth c0 horig
    unfold edit_message
    rw [hfind]
    simp only [if_neg (by simp [hauth] : ¬ m.author_id ≠ uid)]
    refine List.mem_map.mpr ⟨m, hmem, ?_⟩
    rw [if_pos hmid, horig]
    rfl
  · intro hauth r hr hrid
    unfold edit_message
    rw [hfind]
    simp only [if_neg (by simp [hauth] : ¬ m.author_id ≠ uid)]
    exact List.mem_map.mpr ⟨r, hr, by rw [if_neg hrid]⟩

/-- Witness for claim C7 (amended form): editing `baseMsg` (content
`hello`) to `world` as its author snapshots `hello`. -/
theorem edit_message_spec_witness :
    ({ baseMsg with
        content := "world", updated_at := some 5, is_edited := true,
        original_content := some "hello" } : MsgRow) ∈
      (edit_message dbRoomExample 1 1 "world" 5).1.messages :=
  (edit_message_spec dbRoomExample 1 1 "world" 5 baseMsg (by decide)).2.1
    (by decide) (by decide) (by decide)

/-- Counterexample for claim C7 as stated: the first edit of `baseMsg`
(never edited, `original_content` empty) to the identical content
`hello` succeeds, sets `is_edited` and `updated_at`, but leaves
`original_content` empty — the previous content is not snapshotted on
this first edit. -/
theorem edit_message_noop_first_edit_no_snapshot :
    (edit_message dbRoomExample 1 1 "hello" 5).1.messages.map
        (fun r => (r.content, r.is_edited, r.updated_at, r.original_content)) =
      [("hello", true, some 5, none)] := by
  decide

/-! ### Claim C8 — `MessageStore::pin_room_message` -/

theorem filter_idmatch_le_one (l : List MsgRow) (mid : Int)
    (h : (l.map (fun m => m.id)).Nodup) :
    (l.filter (fun r => decide (r.id = mid))).length ≤ 1 := by
  induction l with
  | nil => simp
  | cons x xs ih =>
    rw [List.map_cons, List.nodup_cons] at h
    obtain ⟨hx, hxs⟩ := h
    rw [length_filter_cons_if]
    by_cases hid : x.id = mid
    · have hnil : xs.filter (fun r => decide (r.id = mid)) = [] := by
        rw [List.filter_eq_nil_iff]
        intro r hr
        simp only [decide_eq_true_eq]
        intro heq
        exact hx (hid ▸ heq ▸ List.mem_map_of_mem _ hr)
      simp [hnil, hid]
    · have h0 : (if decide (x.id = mid) = true then 1 else 0) = 0 := by
        simp [hid]
      rw [h0]
      simpa using ih hxs

theorem pin_count_map_le (l : List MsgRow) (room_id : String) (mid : Int)
    (now : Int) :
    ((l.map (fun m =>
        if m.id = mid then { m with is_pinned := true, updated_at := some now }
        else m)).filter (pinPred room_id)).length ≤
      (l.filter (pinPred room_id)).length +
        (l.filter (fun r => decide (r.id = mid))).length := by
  induction l with
  | nil => simp
  | cons x xs ih =>
    rw [List.map_cons, length_filter_cons_if, length_filter_cons_if,
      length_filter_cons_if]
    by_cases hid : x.id = mid
    · rw [if_pos hid]
      have h1 : (if decide (x.id = mid) = true then 1 else 0) = 1 := by simp [hid]
      have h2 :
          (if pinPred room_id
              ({ x with is_pinned := true, updated_at := some now } : MsgRow) = true then
            (1 : Nat) else 0) ≤ 1 := by
        split <;> omega
      omega
    · rw [if_neg hid]
      have h1 : (if decide (x.id = mid) = true then 1 else 0) = 0 := by simp [hid]
      omega

theorem unpin_count_map_le (l : List MsgRow) (room_id : String) (mid : Int)
    (now : Int) :
    ((l.map (fun m =>
        if m.id = mid then { m with is_pinned := false, updated_at := some now }
        else m)).filter (pinPred room_id)).length ≤
      (l.filter (pinPred room_id)).length := by
  induction l with
  | nil => simp
  | cons x xs ih =>
    rw [List.map_cons, length_filter_cons_if, length_filter_cons_if]
    by_cases hid : x.id = mid
    · rw [if_pos hid]
      have h2 :
          (if pinPred room_id
              ({ x with is_pinned := false, updated_at := some now } : MsgRow) = true then
            (1 : Nat) else 0) = 0 := by
        simp [pinPred]
      omega
    · rw [if_neg hid]
      omega

/-- Claim C8: `pin_room_message` keeps the per-room pinned count at or
below 10 (assuming unique message ids, the `messages` primary key);
pinning fails with the limit-reached error when the room already has 10
pinned messages; a message outside the room fails with the
message-not-found error (both errors are built with
`ChatError::configuration_error`, the constructor the source uses); and
every successful pin or unpin appends the moderation-log entry. -/
theorem pin_room_message_spec (db : Db) (mid : Int) (room_id : String)
    (moderator_id : Int) (pinned : Bool) (now : Int)
    (hN : (db.messages.map (fun m => m.id)).Nodup) :
    (pinnedCount db room_id ≤ 10 →
        pinnedCount (pin_room_message db mid room_id moderator_id pinned now).1
          room_id ≤ 10) ∧
      (message_in_room db mid room_id = false →
        pin_room_message db mid room_id moderator_id pinned now =
          (db, .error (.configurationError "Message non trouvé dans ce salon"))) ∧
      (pinned = true → message_in_room db mid room_id = true →
        10 ≤ pinnedCount db room_id →
        pin_room_message db mid room_id moderator_id pinned now =
          (db, .error (.configurationError
            "Limite de messages épinglés atteinte (10 par salon)"))) ∧
      ((pin_room_message db mid room_id moderator_id pinned now).2 = .ok () →
        (pin_room_message db mid room_id moderator_id pinned now).1.moderation_log =
          db.moderation_log ++ [pinModEntry mid room_id moderator_id pinned now]) := by
  refine ⟨?_, ?_, ?_, ?_⟩
  · intro hle
    unfold pin_room_message
    by_cases h1 : message_in_room db mid room_id
    · rw [if_neg (by simp [h1])]
      by_cases h2 : pinned && decide (10 ≤ pinnedCount db room_id)
      · rw [if_pos h2]
        exact hle
      · rw [if_neg h2]
        cases hp : pinned with
        | true =>
          have hlt : pinnedCount db room_id < 10 := by
            rw [hp] at h2
            simp only [Bool.true_and, decide_eq_true_eq] at h2
            omega
          unfold pinnedCount at *
          have ha := pin_count_map_le db.messages room_id mid now
          have hb := filter_idmatch_le_one db.messages mid hN
          simp only [hp]
          omega
        | false =>
          have ha := unpin_count_map_le db.messages room_id mid now
          unfold pinnedCount at *
          simp only [hp]
          omega
    · rw [if_pos (by simp [h1])]
      exact hle
  · intro h1
    unfold pin_room_message
    rw [if_pos (by simp [h1])]
  · intro hp h1 hcap
    unfold pin_room_message
    rw [if_neg (by simp [h1]), if_pos (by simp [hp, hcap])]
  · intro hok
    unfold pin_room_message at hok ⊢
    by_cases h1 : message_in_room db mid room_id
    · rw [if_neg (by simp [h1])] at hok ⊢
      by_cases h2 : pinned && decide (10 ≤ pinnedCount db room_id)
      · rw [if_pos h2] at hok
        cases hok
      · rw [if_neg h2]
    · rw [if_pos (by simp [h1])] at hok
      cases hok

/-- Witness for claim C8: pinning the one message of `dbRoomExample`
writes the `pin` moderation-log entry. -/
theorem pin_room_message_spec_witness :
    (pin_room_message dbRoomExample 1 "general" 7 true 3).1.moderation_log =
      [] ++ [pinModEntry 1 "general" 7 true 3] :=
  (pin_room_message_spec dbRoomExample 1 "general" 7 true 3 (by decide)).2.2.2
    (by decide)

/-! ### Claim C10 — `MessageStore::add_reaction` / `remove_reaction` -/

/-- Claim C10: with an existing non-deleted message, `add_reaction` on
an already present `(message, user, emoji)` triple fails with
`ReactionAlreadyExists`; `remove_reaction` on an absent triple fails
with `ReactionNotFound` and leaves the store unchanged; and a
successful `add_reaction` followed by `remove_reaction` on the same
triple restores the `message_reactions` table — and with it the
emoji-to-user summary — exactly. -/
theorem reaction_add_remove_spec (db : Db) (mid uid : Int) (emoji : String)
    (now : Int)
    (hmsg : db.messages.any (fun m =>
        decide (m.id = mid) && decide (m.status ≠ MessageStatus.deleted)) = true) :
    (db.reactions.any (reactionMatches mid uid emoji) = true →
        add_reaction db mid uid emoji now = (db, .error .reactionAlreadyExists)) ∧
      (db.reactions.any (reactionMatches mid uid emoji) = false →
        remove_reaction db mid uid emoji = (db, .error .reactionNotFound)) ∧
      (db.reactions.any (reactionMatches mid uid emoji) = false →
        (add_reaction db mid uid emoji now).2 = .ok () ∧
          (remove_reaction (add_reaction db mid uid emoji now).1 mid uid emoji).2 =
            .ok () ∧
          (remove_reaction (add_reaction db mid uid emoji now).1 mid uid emoji).1 =
            db) := by
  refine ⟨?_, ?_, ?_⟩
  · intro hpresent
    unfold add_reaction
    rw [if_neg (fun h => h hmsg), if_pos hpresent]
  · intro habsent
    have hall := List.any_eq_false.mp habsent
    have hnil : db.reactions.filter (reactionMatches mid uid emoji) = [] := by
      rw [List.filter_eq_nil_iff]
      intro r hr
      simp [hall r hr]
    have hkeep :
        db.reactions.filter (fun r => ! reactionMatches mid uid emoji r) =
          db.reactions := by
      rw [List.filter_eq_self]
      intro r hr
      simp [hall r hr]
    unfold remove_reaction
    rw [hnil, hkeep]
    rfl
  · intro habsent
    have hall := List.any_eq_false.mp habsent
    have hrow : reactionMatches mid uid emoji
        { message_id := mid, user_id := uid, emoji := emoji, created_at := now } =
          true := by
      simp [reactionMatches]
    have hadd :
        add_reaction db mid uid emoji now =
          ({ db with reactions := db.reactions ++
              [({ message_id := mid, user_id := uid, emoji := emoji,
                  created_at := now } : ReactionRow)] }, .ok ()) := by
      unfold add_reaction
      rw [if_neg (fun h => h hmsg), if_neg (by simp [habsent])]
    have hlenApp :
        ((db.reactions ++
            [({ message_id := mid, user_id := uid, emoji := emoji,
                created_at := now } : ReactionRow)]).filter
          (reactionMatches mid uid emoji)).length = 1 := by
      rw [List.filter_append]
      have h1 : db.reactions.filter (reactionMatches mid uid emoji) = [] := by
        rw [List.filter_eq_nil_iff]
        intro r hr
        simp [hall r hr]
      rw [h1]
      simp [hrow]
    have hkeepApp :
        (db.reactions ++
            [({ message_id := mid, user_id := uid, emoji := emoji,
                created_at := now } : ReactionRow)]).filter
          (fun r => ! reactionMatches mid uid emoji r) = db.reactions := by
      rw [List.filter_append]
      have h1 : db.reactions.filter (fun r => ! reactionMatches mid uid emoji r) =
          db.reactions := by
        rw [List.filter_eq_self]
        intro r hr
        simp [hall r hr]
      rw [h1]
      simp [hrow]
    have hrem :
        remove_reaction
            ({ db with reactions := db.reactions ++
                [({ message_id := mid, user_id := uid, emoji := emoji,
                    created_at := now } : ReactionRow)] }) mid uid emoji =
          (db, .ok ()) := by
      unfold remove_reaction
      rw [hkeepApp, hlenApp, if_neg (by omega : ¬ (1 : Nat) = 0)]
    refine ⟨by rw [hadd], ?_, ?_⟩
    · simp only [hadd, hrem]
    · simp only [hadd, hrem]

/-- Witness for claim C10: on `dbRoomExample` (one live message, no
reactions) adding then removing a `like` by user 2 restores the empty
reaction table. -/
theorem reaction_add_remove_spec_witness :
    (remove_reaction (add_reaction dbRoomExample 1 2 "like" 9).1 1 2 "like").1 =
      dbRoomExample :=
  ((reaction_add_remove_spec dbRoomExample 1 2 "like" 9 (by decide)).2.2
    (by decide)).2.2

/-! ### Claim C9 — `ChatHub::unregister` and `cleanup_dead_connections`
(hub/common.rs) -/

/-- The per-session state of `crate::client::Client` the hub reads:
the display name and the last-activity instant. -/
structure Client where
  username : String
  last_activity : Nat
deriving DecidableEq

/-- The `HubStats` record of `hub/common.rs` (the `uptime_start`
`Instant` is dropped). -/
structure HubStats where
  total_connections : Nat
  active_connections : Nat
  total_messages : Nat
  total_rooms_created : Nat
deriving DecidableEq

/-- The mutable state of `ChatHub`: the `clients` map (`user_id →
Client`, unique keys, modelled as an association list), the `rooms` map
(`room name → member ids`) and the stats. -/
structure HubState where
  clients : List (Int × Client)
  rooms : List (String × List Int)
  stats : HubStats
deriving DecidableEq

/-- Modelled from the spec: `Client::is_alive` lives in
`src/client.rs`, which is not part of the provided sources; §4.3 of the
spec defines `isAlive(session, timeout) = now − last-activity ≤
timeout`. -/
def is_alive (c : Client) (now timeout : Nat) : Bool :=
  decide (now - c.last_activity ≤ timeout)

/-- `ChatHub::unregister`: remove the user from the `clients` map,
refresh `active_connections`, and `retain` every room's member list
without the user. -/
def unregister (s : HubState) (user_id : Int) : HubState :=
  let clients' := s.clients.filter (fun p => decide (p.1 ≠ user_id))
  { clients := clients',
    rooms := s.rooms.map (fun rp => (rp.1, rp.2.filter (fun v => decide (v ≠ user_id)))),
    stats := { s.stats with active_connections := clients'.length } }

/-- `ChatHub::cleanup_dead_connections`: timeout is three heartbeat
intervals; collect the users whose session fails `is_alive` under a
read view, then `unregister` each. -/
def cleanup_dead_connections (s : HubState) (now heartbeat_interval : Nat) :
    HubState :=
  let timeout := heartbeat_interval * 3
  let dead := (s.clients.filter (fun p => ! is_alive p.2 now timeout)).map
    (fun p => p.1)
  dead.foldl (fun st uid => unregister st uid) s

theorem foldl_unregister_clients (ds : List Int) :
    ∀ s : HubState,
      (ds.foldl (fun st uid => unregister st uid) s).clients =
        s.clients.filter (fun p => decide (p.1 ∉ ds)) := by
  induction ds with
  | nil =>
    intro s
    simp
  | cons d ds ih =>
    intro s
    rw [List.foldl_cons, ih]
    show (unregister s d).clients.filter _ = _
    unfold unregister
    rw [List.filter_filter]
    apply List.filter_congr
    intro p _
    by_cases h1 : p.1 = d
    · simp [h1]
    · by_cases h2 : p.1 ∈ ds
      · simp [h1, h2]
      · simp [h1, h2]

theorem foldl_unregister_rooms (ds : List Int) :
    ∀ s : HubState,
      (ds.foldl (fun st uid => unregister st uid) s).rooms =
        s.rooms.map (fun rp => (rp.1, rp.2.filter (fun v => decide (v ∉ ds)))) := by
  induction ds with
  | nil =>
    intro s
    have : ∀ rp : String × List Int,
        (rp.1, rp.2.filter (fun v => decide (v ∉ ([] : List Int)))) = rp := by
      intro rp
      simp
    simp only [List.foldl_nil, this]
    exact (List.map_id' _).symm
  | cons d ds ih =>
    intro s
    rw [List.foldl_cons, ih]
    show ((unregister s d).rooms).map _ = _
    unfold unregister
    rw [List.map_map]
    apply List.map_congr_left
    intro rp _
    simp only [Function.comp]
    rw [List.filter_filter]
    congr 1
    apply List.filter_congr
    intro v _
    by_cases h1 : v = d
    · simp [h1]
    · by_cases h2 : v ∈ ds
      · simp [h1, h2]
      · simp [h1, h2]

theorem mem_room_filter {q : Int → Bool} {l : List (String × List Int)}
    {r : String} {ms : List Int}
    (hm : (r, ms) ∈ l.map (fun rp => (rp.1, rp.2.filter q)))
    {v : Int} (hv : v ∈ ms) : q v = true := by
  obtain ⟨rp, _, heq⟩ := List.mem_map.mp hm
  injection heq with _ hb
  rw [← hb] at hv
  exact (List.mem_filter.mp hv).2

theorem assoc_unique_value {l : List (Int × Client)}
    (hN : (l.map (fun p => p.1)).Nodup) {v : Int} {c c' : Client}
    (h1 : (v, c) ∈ l) (h2 : (v, c') ∈ l) : c = c' := by
  induction l with
  | nil => cases h1
  | cons x xs ih =>
    rw [List.map_cons, List.nodup_cons] at hN
    obtain ⟨hx, hxs⟩ := hN
    rcases List.mem_cons.mp h1 with h1 | h1
    · rcases List.mem_cons.mp h2 with h2 | h2
      · exact congrArg Prod.snd (h1.trans h2.symm)
      · exfalso
        apply hx
        have hxv : x.1 = v := by rw [← h1]
        rw [hxv]
        exact List.mem_map_of_mem _ h2
    · rcases List.mem_cons.mp h2 with h2 | h2
      · exfalso
        apply hx
        have hxv : x.1 = v := by rw [← h2]
        rw [hxv]
        exact List.mem_map_of_mem _ h1
      · exact ih hxs h1 h2

/-- Claim C9: `unregister(u)` removes `u`'s session from the registry
and `u` from every room's member list, leaving the sessions and room
memberships of every other user unchanged; and `cleanup_dead_connections`
does exactly this for every user whose session fails `is_alive` with
timeout `3 × heartbeat_interval`, while sessions that pass `is_alive`
survive (assuming unique registry keys, the `HashMap` invariant). -/
theorem unregister_cleanup_spec (s : HubState) (uid : Int) (now hb : Nat)
    (hN : (s.clients.map (fun p => p.1)).Nodup) :
    (∀ c : Client, (uid, c) ∉ (unregister s uid).clients) ∧
      (∀ r ms, (r, ms) ∈ (unregister s uid).rooms → uid ∉ ms) ∧
      (∀ v c, v ≠ uid →
        ((v, c) ∈ (unregister s uid).clients ↔ (v, c) ∈ s.clients)) ∧
      (∀ r ms, (r, ms) ∈ s.rooms →
        (r, ms.filter (fun v => decide (v ≠ uid))) ∈ (unregister s uid).rooms) ∧
      (∀ c : Client, (uid, c) ∈ s.clients →
        is_alive c now (hb * 3) = false →
        (∀ c' : Client, (uid, c') ∉ (cleanup_dead_connections s now hb).clients) ∧
          ∀ r ms, (r, ms) ∈ (cleanup_dead_connections s now hb).rooms → uid ∉ ms) ∧
      (∀ v c, (v, c) ∈ s.clients → is_alive c now (hb * 3) = true →
        (v, c) ∈ (cleanup_dead_connections s now hb).clients) := by
  refine ⟨?_, ?_, ?_, ?_, ?_, ?_⟩
  · intro c hc
    have := (List.mem_filter.mp hc).2
    simp at this
  · intro r ms hm hmem
    have := mem_room_filter hm hmem
    simp at this
  · intro v c hv
    constructor
    · intro h
      exact (List.mem_filter.mp h).1
    · intro h
      exact List.mem_filter.mpr ⟨h, by simpa using hv⟩
  · intro r ms hm
    exact List.mem_map.mpr ⟨(r, ms), hm, rfl⟩
  · intro c hc hdead
    have huid : uid ∈ (s.clients.filter
        (fun p => ! is_alive p.2 now (hb * 3))).map (fun p => p.1) := by
      apply List.mem_map.mpr
      refine ⟨(uid, c), List.mem_filter.mpr ⟨hc, by simp [hdead]⟩, rfl⟩
    constructor
    · intro c' hc'
      unfold cleanup_dead_connections at hc'
      rw [foldl_unregister_clients] at hc'
      have := (List.mem_filter.mp hc').2
      simp only [decide_eq_true_eq] at this
      exact this huid
    · intro r ms hm hmem
      unfold cleanup_dead_connections at hm
      rw [foldl_unregister_rooms] at hm
      have := mem_room_filter hm hmem
      simp only [decide_eq_true_eq] at this
      exact this huid
  · intro v c hc halive
    unfold cleanup_dead_connections
    rw [foldl_unregister_clients]
    apply List.mem_filter.mpr
    refine ⟨hc, ?_⟩
    simp only [decide_eq_true_eq]
    intro hv
    obtain ⟨p, hp, hpeq⟩ := List.mem_map.mp hv
    have hpmem := (List.mem_filter.mp hp).1
    have hpdead := (List.mem_filter.mp hp).2
    have hpv : p = (v, p.2) := by
      rw [← hpeq]
    rw [hpv] at hpmem
    have := assoc_unique_value hN hc hpmem
    rw [← this] at hpdead
    simp [halive] at hpdead

/-- A two-user hub state: user 1 idle since instant 0, user 2 active at
instant 100, both members of room `general`. -/
def hubExample : HubState :=
  { clients := [(1, ⟨"alice", 0⟩), (2, ⟨"bob", 100⟩)],
    rooms := [("general", [1, 2])],
    stats := { total_connections := 2, active_connections := 2,
               total_messages := 0, total_rooms_created := 0 } }

/-- Witness for claim C9: unregistering user 1 from `hubExample` removes
their session, and the dead-session cleanup at `now = 100` with a
10-second heartbeat evicts user 1 (idle for 100 > 30 seconds). -/
theorem unregister_cleanup_spec_witness :
    (1, (⟨"alice", 0⟩ : Client)) ∉ (unregister hubExample 1).clients ∧
      (1, (⟨"alice", 0⟩ : Client)) ∉
        (cleanup_dead_connections hubExample 100 10).clients :=
  ⟨(unregister_cleanup_spec hubExample 1 100 10 (by decide)).1 ⟨"alice", 0⟩,
    ((unregister_cleanup_spec hubExample 1 100 10 (by decide)).2.2.2.2.1
      ⟨"alice", 0⟩ (by decide) (by decide)).1 ⟨"alice", 0⟩⟩
